import Mathlib

/-!
Verification of the `welleng` survey core (`welleng/survey.py`) against its
specification.  The Python module is shallowly embedded below: machine floats
are modelled as real numbers, numpy arrays as lists, Python `None` as `Option`,
and the `assert`-based failure modes as an `Except` result.  Collaborators that
live outside the reviewed module (`welleng.utils.MinCurve`, `get_nev`,
`get_vec`, `get_angles`, and `welleng.error.ErrorModel`) are modelled from the
specification; their doc comments say so explicitly.
-/

set_option maxHeartbeats 1000000

open Classical

noncomputable section

/-- 3-component vector (a row of a numpy `(n,3)` array). -/
abbrev Vec3 := ℝ × ℝ × ℝ

def v3add (u v : Vec3) : Vec3 := (u.1 + v.1, u.2.1 + v.2.1, u.2.2 + v.2.2)

def v3sub (u v : Vec3) : Vec3 := (u.1 - v.1, u.2.1 - v.2.1, u.2.2 - v.2.2)

def v3smul (c : ℝ) (v : Vec3) : Vec3 := (c * v.1, c * v.2.1, c * v.2.2)

def v3dot (u v : Vec3) : ℝ := u.1 * v.1 + u.2.1 * v.2.1 + u.2.2 * v.2.2

/-- Python sequence indexing with an `int` index: non-negative indices are
counted from the front, negative indices from the back (numpy/Python
wrap-around semantics). -/
def pyGetD {α : Type _} (xs : List α) (i : ℤ) (d : α) : α :=
  if 0 ≤ i then xs.getD i.toNat d else xs.getD (xs.length - (-i).toNat) d

/-- `np.array([as, bs, cs]).T` for three equal-length 1-d arrays: the list of
rows. -/
def zip3 {α β γ : Type _} : List α → List β → List γ → List (α × β × γ)
  | a :: as, b :: bs, c :: cs => (a, b, c) :: zip3 as bs cs
  | _, _, _ => []

/-- `np.radians`. -/
def radiansOf (x : ℝ) : ℝ := x * (Real.pi / 180)

/-- `np.degrees`. -/
def degreesOf (x : ℝ) : ℝ := x * (180 / Real.pi)

/-- Modelled from the spec: the tangent-vector helper `welleng.utils.get_vec`
(not part of the reviewed module).  It maps an inclination (angle from
vertical) and azimuth to the unit tangent vector of the well bore. -/
def get_vec1 (inc azi : ℝ) : Vec3 :=
  (Real.sin inc * Real.sin azi, Real.sin inc * Real.cos azi, Real.cos inc)

/-- Modelled from the spec: vectorized `get_vec` over station lists, with the
`deg` flag converting inputs first. -/
def get_vec (inc azi : List ℝ) (deg : Bool) : List Vec3 :=
  if deg then List.zipWith (fun i a => get_vec1 (radiansOf i) (radiansOf a)) inc azi
  else List.zipWith get_vec1 inc azi

/-- Two-argument arctangent, via the complex argument: `atan2 y x` is the
angle of the point `(x, y)` in `(-pi, pi]`. -/
def atan2 (y x : ℝ) : ℝ := Complex.arg ⟨x, y⟩

/-- Normalize an angle in `(-pi, pi]` to `[0, 2*pi)`, as numpy's
`(theta + 2*pi) % (2*pi)` does. -/
def pos2pi (a : ℝ) : ℝ := if a < 0 then a + 2 * Real.pi else a

/-- Modelled from the spec: the inverse tangent helper `welleng.utils.get_angles`
(not part of the reviewed module), the inverse of the tangent-from-angles
mapping `get_vec1` on unit tangents.  Returns `(inc, azi)` with `azi`
normalized to `[0, 2*pi)`. -/
def get_angles1 (v : Vec3) : ℝ × ℝ :=
  (Real.arccos v.2.2, pos2pi (atan2 v.1 v.2.1))

/-- Modelled from the spec: the NEV projector `welleng.utils.get_nev` (not part
of the reviewed module) — a pure translation of Cartesian positions: subtract
the Cartesian start offset and add the NEV start offset.  No rotation, no
scaling. -/
def get_nev (poss : List Vec3) (start_xyz start_nev : Vec3) : List Vec3 :=
  poss.map (fun p => v3add start_nev (v3sub p start_xyz))

/-- The standard minimum-curvature dogleg angle of the interval between two
stations with angles `(i1, a1)` and `(i2, a2)` (radians). -/
def doglegOfAngles (i1 a1 i2 a2 : ℝ) : ℝ :=
  Real.arccos (Real.cos (i2 - i1) - Real.sin i1 * Real.sin i2 * (1 - Real.cos (a2 - a1)))

/-- Per-interval dogleg list entry of the minimum-curvature solver; index `0`
has no preceding interval and gets `0`. -/
def mcDoglegF (inc azi : List ℝ) (k : ℕ) : ℝ :=
  if k = 0 then 0
  else doglegOfAngles (inc.getD (k - 1) 0) (azi.getD (k - 1) 0) (inc.getD k 0) (azi.getD k 0)

/-- Per-interval measured-depth increment; index `0` gets `0`. -/
def mcDeltaF (md : List ℝ) (k : ℕ) : ℝ :=
  if k = 0 then 0 else md.getD k 0 - md.getD (k - 1) 0

/-- Minimum-curvature ratio factor as a function of the dogleg, guarded at a
zero dogleg. -/
def rfOfDogleg (d : ℝ) : ℝ := if d = 0 then 1 else 2 / d * Real.tan (d / 2)

def mcRfF (inc azi : List ℝ) (k : ℕ) : ℝ := rfOfDogleg (mcDoglegF inc azi k)

/-- Unit tangent at station `k`, from the station angles. -/
def tvecF (inc azi : List ℝ) (k : ℕ) : Vec3 := get_vec1 (inc.getD k 0) (azi.getD k 0)

/-- Minimum-curvature station positions: each interval contributes
`(delta_md / 2) * rf * (t1 + t2)`. -/
def mcPosF (md inc azi : List ℝ) (start : Vec3) : ℕ → Vec3
  | 0 => start
  | k + 1 =>
      v3add (mcPosF md inc azi start k)
        (v3smul (mcDeltaF md (k + 1) / 2 * mcRfF inc azi (k + 1))
          (v3add (tvecF inc azi k) (tvecF inc azi (k + 1))))

/-- Dogleg severity: curvature rate per standard course length (30 m or
100 ft), in degrees; `0` where the interval has no length. -/
def mcDlsF (md inc azi : List ℝ) (unitTag : String) (k : ℕ) : ℝ :=
  if mcDeltaF md k = 0 then 0
  else degreesOf (mcDoglegF inc azi k) / mcDeltaF md k * (if unitTag = "meters" then 30 else 100)

structure MinCurveResult where
  dogleg : List ℝ
  rf : List ℝ
  delta_md : List ℝ
  dls : List ℝ
  poss : List Vec3

/-- Modelled from the spec: the external minimum-curvature solver
`welleng.utils.MinCurve` (not part of the reviewed module).  Interface per the
spec: `(md, inc_rad, azi_rad, start_xyz, unit)` to per-interval dogleg, ratio
factor, delta-MD, DLS and absolute positions, realized with the standard
minimum-curvature formulas. -/
def MinCurve (md inc azi : List ℝ) (start_xyz : Vec3) (unitTag : String) : MinCurveResult where
  dogleg := (List.range md.length).map (mcDoglegF inc azi)
  rf := (List.range md.length).map (mcRfF inc azi)
  delta_md := (List.range md.length).map (mcDeltaF md)
  dls := (List.range md.length).map (mcDlsF md inc azi unitTag)
  poss := (List.range md.length).map (mcPosF md inc azi start_xyz)

/-- A per-station 3x3 covariance matrix. -/
abbrev Mat3 := Matrix (Fin 3) (Fin 3) ℝ

/-- An axis-major `(3,3,n)` stack of covariance entries, as produced by the
error model and by `np.array` over a 3x3 block of per-station sequences. -/
abbrev AxisStack := Fin 3 → Fin 3 → List ℝ

/-- numpy's `.T` on a `(3,3,n)` stack: reverse all axes, producing the list of
per-station 3x3 matrices. -/
def npT3 (M : AxisStack) : List Mat3 :=
  (List.range (M 0 0).length).map (fun k => Matrix.of (fun i j => (M j i).getD k 0))

/-- The interface of the external ISCWSA error model
(`welleng.error.ErrorModel`): degree-angle survey table, surface location and
opaque well-reference parameters in; axis-major HLA and NEV covariance stacks
out.  Its internals are out of the spec's scope, so the whole development is
parametric in it. -/
abbrev EMFun := List Vec3 → Vec3 → Option (List ℝ) → AxisStack × AxisStack

/-- A trivial instantiation of the error-model interface, used for concrete
examples. -/
def zeroEM : EMFun := fun _ _ _ => (fun _ _ => [], fun _ _ => [])

def mulL (a b : List ℝ) : List ℝ := List.zipWith (fun u v => u * v) a b

/-- `np.zeros_like` on a 1-d array. -/
def zerosLike (a : List ℝ) : List ℝ := a.map (fun _ => (0 : ℝ))

/-- `make_cov(a, b, c, diag)` from `welleng/survey.py`: build per-station 3x3
covariance matrices from three 1-sigma sequences.  The written 3x3 block of
sequences has shape `(3,3,n)`; `.T` turns it station-major. -/
def make_cov (a b c : List ℝ) (diag : Bool) : List Mat3 :=
  if diag then
    npT3 ![![mulL a a, zerosLike a, zerosLike a],
           ![zerosLike a, mulL b b, zerosLike a],
           ![zerosLike a, zerosLike a, mulL c c]]
  else
    npT3 ![![mulL a a, mulL a b, mulL a c],
           ![mulL a b, mulL b b, mulL b c],
           ![mulL a c, mulL b c, mulL c c]]

/-- The failure taxonomy of the spec (section 7). -/
inductive SurveyError where
  | invalidConfiguration
  | indexOutOfRange
  | outOfRange
  deriving DecidableEq

/-- Construction phases of `Survey.__init__`, in source order, used to state
when a failure happens relative to the positional computation. -/
inductive Phase where
  | makeAngles
  | minCurve
  | errorCheck
  | getErrors
  deriving DecidableEq

/-- The Survey data model: the attributes stored on a constructed
`welleng.Survey` instance.  Attributes that can be absent (`None`) are
`Option`s. -/
structure Survey where
  unit : String
  deg : Bool
  start_xyz : Vec3
  start_nev : Vec3
  md : List ℝ
  inc_rad : List ℝ
  azi_rad : List ℝ
  inc_deg : List ℝ
  azi_deg : List ℝ
  radius : Option ℝ
  survey_deg : List Vec3
  survey_rad : List Vec3
  n : Option (List ℝ)
  e : Option (List ℝ)
  tvd : Option (List ℝ)
  x : Option (List ℝ)
  y : Option (List ℝ)
  z : Option (List ℝ)
  vec : Option (List Vec3)
  dogleg : List ℝ
  rf : List ℝ
  delta_md : List ℝ
  dls : List ℝ
  error_model : Option String
  well_ref_params : Option (List ℝ)
  cov_hla : Option (List Mat3)
  cov_nev : Option (List Mat3)
  err : Option (AxisStack × AxisStack)

/-- The keyword arguments of `Survey.__init__`, with source defaults. -/
structure SurveyArgs where
  md : List ℝ
  inc : List ℝ
  azi : List ℝ
  n : Option (List ℝ) := none
  e : Option (List ℝ) := none
  tvd : Option (List ℝ) := none
  x : Option (List ℝ) := none
  y : Option (List ℝ) := none
  z : Option (List ℝ) := none
  vec : Option (List Vec3) := none
  radius : Option ℝ := none
  cov_nev : Option (List Mat3) := none
  cov_hla : Option (List Mat3) := none
  error_model : Option String := none
  well_ref_params : Option (List ℝ) := none
  start_xyz : Vec3 := (0, 0, 0)
  start_nev : Vec3 := (0, 0, 0)
  deg : Bool := true
  unit : String := "meters"

/-- `Survey._get_nev`: project the stored Cartesian columns into NEV. -/
def Survey._get_nev (s : Survey) : Survey :=
  let nev := get_nev (zip3 (s.x.getD []) (s.y.getD []) (s.z.getD [])) s.start_xyz s.start_nev
  { s with
    n := some (nev.map (fun p => p.1))
    e := some (nev.map (fun p => p.2.1))
    tvd := some (nev.map (fun p => p.2.2)) }

/-- `Survey._min_curve`: run the solver, adopt its interval quantities, and
resolve the positional, NEV and tangent attributes that the caller did not
supply. -/
def Survey._min_curve (s : Survey) : Survey :=
  let mc := MinCurve s.md s.inc_rad s.azi_rad s.start_xyz s.unit
  let s1 := { s with dogleg := mc.dogleg, rf := mc.rf, delta_md := mc.delta_md, dls := mc.dls }
  let s2 :=
    if s1.x.isNone then
      { s1 with
        x := some (mc.poss.map (fun p => p.1))
        y := some (mc.poss.map (fun p => p.2.1))
        z := some (mc.poss.map (fun p => p.2.2)) }
    else s1
  let s3 := if s2.n.isNone then s2._get_nev else s2
  if s3.vec.isNone then { s3 with vec := some (get_vec s3.inc_rad s3.azi_rad false) } else s3

/-- The recognized error-model tags (`error_models` in `Survey.__init__`). -/
def error_models : List String := ["ISCWSA_MWD"]

/-- `Survey._get_errors`: when an error model is set (and recognized), invoke
it and store its two covariance stacks, transposed station-major, overwriting
whatever was there. -/
def Survey._get_errors (EM : EMFun) (s : Survey) : Survey :=
  if s.error_model.isSome then
    if s.error_model = some "ISCWSA_MWD" then
      let res := EM s.survey_deg s.start_xyz s.well_ref_params
      { s with err := some res, cov_hla := some (npT3 res.1), cov_nev := some (npT3 res.2) }
    else s
  else s

/-- The record produced by a successful `Survey.__init__`: make the angles,
store the caller attributes, run `_min_curve`, then `_get_errors`. -/
def Survey.make (EM : EMFun) (a : SurveyArgs) : Survey :=
  let inc_rad := if a.deg then a.inc.map radiansOf else a.inc
  let azi_rad := if a.deg then a.azi.map radiansOf else a.azi
  let inc_deg := if a.deg then a.inc else a.inc.map degreesOf
  let azi_deg := if a.deg then a.azi else a.azi.map degreesOf
  let s0 : Survey :=
    { unit := a.unit
      deg := a.deg
      start_xyz := a.start_xyz
      start_nev := a.start_nev
      md := a.md
      inc_rad := inc_rad
      azi_rad := azi_rad
      inc_deg := inc_deg
      azi_deg := azi_deg
      radius := a.radius
      survey_deg := zip3 a.md inc_deg azi_deg
      survey_rad := zip3 a.md inc_rad azi_rad
      n := a.n
      e := a.e
      tvd := a.tvd
      x := a.x
      y := a.y
      z := a.z
      vec := a.vec
      dogleg := []
      rf := []
      delta_md := []
      dls := []
      error_model := a.error_model
      well_ref_params := a.well_ref_params
      cov_hla := a.cov_hla
      cov_nev := a.cov_nev
      err := none }
  Survey._get_errors EM (Survey._min_curve s0)

/-- `Survey.__init__` with its evaluation order made explicit: the list records
the phases completed before the constructor either returned or raised.  The
`error_model` validation happens after `_min_curve` (source lines 75-80). -/
def Survey.initSteps (EM : EMFun) (a : SurveyArgs) : List Phase × Except SurveyError Survey :=
  match a.error_model with
  | none =>
      ([Phase.makeAngles, Phase.minCurve, Phase.errorCheck, Phase.getErrors],
        Except.ok (Survey.make EM a))
  | some m =>
      if m ∈ error_models then
        ([Phase.makeAngles, Phase.minCurve, Phase.errorCheck, Phase.getErrors],
          Except.ok (Survey.make EM a))
      else ([Phase.makeAngles, Phase.minCurve], Except.error SurveyError.invalidConfiguration)

/-- `Survey.__init__` as seen by the caller: the instance, or the failure. -/
def Survey.init (EM : EMFun) (a : SurveyArgs) : Except SurveyError Survey :=
  (Survey.initSteps EM a).2

/-- The interpolated `(inc, azi)` of `interpolate_survey`: the starting
station's angles on a tangent section, otherwise the spherical (great-circle)
interpolation of the bracketing unit tangents, converted back to angles. -/
def interpAngles (survey : Survey) (x : ℝ) (index : ℤ) : ℝ × ℝ :=
  if pyGetD survey.dogleg (index + 1) 0 = 0 then
    (pyGetD survey.inc_rad index 0, pyGetD survey.azi_rad index 0)
  else
    let t1 := pyGetD (survey.vec.getD []) index (0, 0, 0)
    let t2 := pyGetD (survey.vec.getD []) (index + 1) (0, 0, 0)
    let total_dogleg := pyGetD survey.dogleg (index + 1) 0
    let dl := x * (total_dogleg / pyGetD survey.delta_md (index + 1) 0)
    get_angles1
      (v3add (v3smul (Real.sin (total_dogleg - dl) / Real.sin total_dogleg) t1)
        (v3smul (Real.sin dl / Real.sin total_dogleg) t2))

/-- `interpolate_survey(survey, x, index)` from `welleng/survey.py`: both
asserts, the tangent-section shortcut, the spherical interpolation, the fresh
`Survey(...)` construction (radian angles, bracketing-station start offsets,
source defaults otherwise) and the explicit re-run of `_min_curve`. -/
def interpolate_survey (EM : EMFun) (survey : Survey) (x : ℝ) (index : ℤ) :
    Except SurveyError Survey :=
  if index < (survey.md.length : ℤ) - 1 then
    if x ≤ pyGetD survey.delta_md (index + 1) 0 then
      let ia := interpAngles survey x index
      (Survey.init EM
        { md := [pyGetD survey.md index 0, pyGetD survey.md index 0 + x]
          inc := [pyGetD survey.inc_rad index 0, ia.1]
          azi := [pyGetD survey.azi_rad index 0, ia.2]
          start_xyz :=
            (pyGetD (survey.x.getD []) index 0, pyGetD (survey.y.getD []) index 0,
              pyGetD (survey.z.getD []) index 0)
          start_nev :=
            (pyGetD (survey.n.getD []) index 0, pyGetD (survey.e.getD []) index 0,
              pyGetD (survey.tvd.getD []) index 0)
          deg := false }).map Survey._min_curve
    else Except.error SurveyError.outOfRange
  else Except.error SurveyError.indexOutOfRange

/-- Explicit two-cell state for the frame property of `interpolate_survey`:
the input instance and the (eventual) result. -/
structure InterpState where
  inp : Survey
  out : Option (Except SurveyError Survey)

/-- Running `interpolate_survey` as a state step: the translation of the
source writes only the fresh output cell — no statement in
`interpolate_survey` assigns to an attribute of the input survey. -/
def runInterpolate (EM : EMFun) (st : InterpState) (x : ℝ) (index : ℤ) : InterpState :=
  { st with out := some (interpolate_survey EM st.inp x index) }

/-- Constructor arguments with radian angles, explicit start offsets and all
other parameters left at their source defaults — the argument shape used both
by plainly constructed surveys and by the fresh survey that
`interpolate_survey` builds. -/
def mkDefArgs (md inc azi : List ℝ) (sx sn : Vec3) : SurveyArgs :=
  { md := md, inc := inc, azi := azi, start_xyz := sx, start_nev := sn, deg := false }

/-- The spec's section-8 example scenario: a vertical 2-station survey. -/
def exArgs : SurveyArgs := mkDefArgs [0, 100] [0, 0] [0, 0] (0, 0, 0) (0, 0, 0)

def exS : Survey := Survey.make zeroEM exArgs

/-- A survey whose first station is vertical (`inc = 0`) with a nonzero
azimuth, the degenerate case of the interpolation boundary identity. -/
def ex2 : Survey :=
  Survey.make zeroEM
    (mkDefArgs [0, 1] [0, Real.pi / 2] [Real.pi / 2, Real.pi / 2] (0, 0, 0) (0, 0, 0))

def exBadArgs : SurveyArgs :=
  { md := [0, 100], inc := [0, 0], azi := [0, 0], error_model := some "NOT_A_MODEL" }

/-! ## List and index utilities -/

theorem getD_range_map {α : Type _} (f : ℕ → α) {n k : ℕ} (d : α) (h : k < n) :
    (((List.range n).map f).getD k d) = f k := by
  rw [List.getD_eq_getElem?_getD, List.getElem?_map, List.getElem?_range h]
  rfl

theorem getD_zipWith {α β γ : Type _} (f : α → β → γ) {l1 : List α} {l2 : List β} {k : ℕ}
    (d1 : α) (d2 : β) (dg : γ) (h1 : k < l1.length) (h2 : k < l2.length) :
    (List.zipWith f l1 l2).getD k dg = f (l1.getD k d1) (l2.getD k d2) := by
  induction l1 generalizing l2 k with
  | nil => simp at h1
  | cons a as ih =>
      cases l2 with
      | nil => simp at h2
      | cons b bs =>
          cases k with
          | zero => rfl
          | succ k =>
              simp only [List.zipWith_cons_cons, List.getD_cons_succ]
              exact ih (by simpa using h1) (by simpa using h2)

theorem pyGetD_natCast {α : Type _} (xs : List α) (k : ℕ) (d : α) :
    pyGetD xs (k : ℤ) d = xs.getD k d := by
  simp [pyGetD]

theorem pyGetD_natCast_add_one {α : Type _} (xs : List α) (k : ℕ) (d : α) :
    pyGetD xs ((k : ℤ) + 1) d = xs.getD (k + 1) d := by
  have h : ((k : ℤ) + 1) = ((k + 1 : ℕ) : ℤ) := by push_cast; ring
  rw [h, pyGetD_natCast]

/-! ## Vector algebra -/

theorem v3smul_zero (v : Vec3) : v3smul 0 v = (0, 0, 0) := by
  simp [v3smul]

theorem v3smul_one (v : Vec3) : v3smul 1 v = v := by
  simp [v3smul]

theorem v3add_zero_right (v : Vec3) : v3add v (0, 0, 0) = v := by
  simp [v3add]

theorem v3add_zero_left (v : Vec3) : v3add (0, 0, 0) v = v := by
  simp [v3add]

theorem get_vec1_unit (i a : ℝ) : v3dot (get_vec1 i a) (get_vec1 i a) = 1 := by
  have hi := Real.sin_sq_add_cos_sq i
  have ha := Real.sin_sq_add_cos_sq a
  simp only [v3dot, get_vec1]
  nlinarith [hi, ha]

theorem unit_dot_le_one {u v : Vec3} (hu : v3dot u u = 1) (hv : v3dot v v = 1) :
    v3dot u v ≤ 1 := by
  obtain ⟨u1, u2, u3⟩ := u
  obtain ⟨w1, w2, w3⟩ := v
  simp only [v3dot] at *
  nlinarith [sq_nonneg (u1 - w1), sq_nonneg (u2 - w2), sq_nonneg (u3 - w3)]

theorem unit_dot_one_eq {u v : Vec3} (hu : v3dot u u = 1) (hv : v3dot v v = 1)
    (huv : v3dot u v = 1) : u = v := by
  obtain ⟨u1, u2, u3⟩ := u
  obtain ⟨w1, w2, w3⟩ := v
  simp only [v3dot] at *
  have key : (u1 - w1) ^ 2 + (u2 - w2) ^ 2 + (u3 - w3) ^ 2 = 0 := by nlinarith
  have h1 : u1 - w1 = 0 := by nlinarith [sq_nonneg (u1 - w1), sq_nonneg (u2 - w2), sq_nonneg (u3 - w3)]
  have h2 : u2 - w2 = 0 := by nlinarith [sq_nonneg (u1 - w1), sq_nonneg (u2 - w2), sq_nonneg (u3 - w3)]
  have h3 : u3 - w3 = 0 := by nlinarith [sq_nonneg (u1 - w1), sq_nonneg (u2 - w2), sq_nonneg (u3 - w3)]
  have e1 : u1 = w1 := by linarith
  have e2 : u2 = w2 := by linarith
  have e3 : u3 = w3 := by linarith
  simp [e1, e2, e3]

/-! ## Dogleg and tangent-vector facts -/

theorem doglegOfAngles_eq_arccos_dot (i1 a1 i2 a2 : ℝ) :
    doglegOfAngles i1 a1 i2 a2 = Real.arccos (v3dot (get_vec1 i1 a1) (get_vec1 i2 a2)) := by
  unfold doglegOfAngles v3dot get_vec1
  congr 1
  rw [Real.cos_sub, Real.cos_sub]
  ring

theorem doglegOfAngles_zero_vec_eq {i1 a1 i2 a2 : ℝ}
    (h : doglegOfAngles i1 a1 i2 a2 = 0) : get_vec1 i1 a1 = get_vec1 i2 a2 := by
  rw [doglegOfAngles_eq_arccos_dot] at h
  have hge : 1 ≤ v3dot (get_vec1 i1 a1) (get_vec1 i2 a2) := Real.arccos_eq_zero.1 h
  have hle : v3dot (get_vec1 i1 a1) (get_vec1 i2 a2) ≤ 1 :=
    unit_dot_le_one (get_vec1_unit i1 a1) (get_vec1_unit i2 a2)
  exact unit_dot_one_eq (get_vec1_unit i1 a1) (get_vec1_unit i2 a2) (le_antisymm hle hge)

theorem doglegOfAngles_zero_angles {i1 a1 i2 a2 : ℝ}
    (hi1 : 0 ≤ i1) (hi1p : i1 ≤ Real.pi) (hi2 : 0 ≤ i2) (hi2p : i2 ≤ Real.pi)
    (ha1 : 0 ≤ a1) (ha1p : a1 < 2 * Real.pi) (ha2 : 0 ≤ a2) (ha2p : a2 < 2 * Real.pi)
    (h : doglegOfAngles i1 a1 i2 a2 = 0) :
    i1 = i2 ∧ (0 < i2 → i2 < Real.pi → a1 = a2) := by
  unfold doglegOfAngles at h
  have hX := Real.arccos_eq_zero.1 h
  have hs1 : 0 ≤ Real.sin i1 := Real.sin_nonneg_of_nonneg_of_le_pi hi1 hi1p
  have hs2 : 0 ≤ Real.sin i2 := Real.sin_nonneg_of_nonneg_of_le_pi hi2 hi2p
  have hc : 1 - Real.cos (a2 - a1) ≥ 0 := by nlinarith [Real.cos_le_one (a2 - a1)]
  have hterm : 0 ≤ Real.sin i1 * Real.sin i2 * (1 - Real.cos (a2 - a1)) := by positivity
  have hcos1 : Real.cos (i2 - i1) ≤ 1 := Real.cos_le_one _
  have hcos_eq : Real.cos (i2 - i1) = 1 := by linarith
  have hterm_eq : Real.sin i1 * Real.sin i2 * (1 - Real.cos (a2 - a1)) = 0 := by linarith
  have hpi := Real.pi_pos
  have hieq : i2 - i1 = 0 :=
    (Real.cos_eq_one_iff_of_lt_of_lt (by linarith) (by linarith)).1 hcos_eq
  refine ⟨by linarith, ?_⟩
  intro h2a h2b
  have hs2pos : 0 < Real.sin i2 := Real.sin_pos_of_pos_of_lt_pi h2a h2b
  have hs1pos : 0 < Real.sin i1 := by
    have : i1 = i2 := by linarith
    rw [this]; exact hs2pos
  have hca : 1 - Real.cos (a2 - a1) = 0 := by
    rcases mul_eq_zero.1 hterm_eq with h' | h'
    · rcases mul_eq_zero.1 h' with h'' | h'' <;> nlinarith
    · exact h'
  have hcaeq : Real.cos (a2 - a1) = 1 := by linarith
  have : a2 - a1 = 0 :=
    (Real.cos_eq_one_iff_of_lt_of_lt (by linarith) (by linarith)).1 hcaeq
  linarith

theorem sin_arccos_pos {X : ℝ} (h0 : Real.arccos X ≠ 0) (hpi : Real.arccos X ≠ Real.pi) :
    0 < Real.sin (Real.arccos X) :=
  Real.sin_pos_of_pos_of_lt_pi
    (lt_of_le_of_ne (Real.arccos_nonneg X) (Ne.symm h0))
    (lt_of_le_of_ne (Real.arccos_le_pi X) hpi)

/-! ## The two angle round-trips -/

theorem get_angles1_get_vec1 {i a : ℝ} (h1 : 0 < i) (h2 : i < Real.pi)
    (h3 : 0 ≤ a) (h4 : a < 2 * Real.pi) :
    get_angles1 (get_vec1 i a) = (i, a) := by
  have hsi : 0 < Real.sin i := Real.sin_pos_of_pos_of_lt_pi h1 h2
  have hpi := Real.pi_pos
  have hinc : Real.arccos (Real.cos i) = i := Real.arccos_cos h1.le h2.le
  have hmk : (⟨Real.sin i * Real.cos a, Real.sin i * Real.sin a⟩ : ℂ)
      = (Real.sin i : ℂ) * ((Real.cos a : ℂ) + (Real.sin a : ℂ) * Complex.I) := by
    rw [Complex.mk_eq_add_mul_I]
    push_cast
    ring
  simp only [get_angles1, get_vec1, atan2, pos2pi]
  by_cases hap : a ≤ Real.pi
  · have harg : Complex.arg ⟨Real.sin i * Real.cos a, Real.sin i * Real.sin a⟩ = a := by
      rw [hmk, Complex.arg_real_mul _ hsi, Complex.ofReal_cos, Complex.ofReal_sin]
      exact Complex.arg_cos_add_sin_mul_I ⟨by linarith, hap⟩
    rw [harg, hinc, if_neg (not_lt.2 h3)]
  · push_neg at hap
    have harg : Complex.arg ⟨Real.sin i * Real.cos a, Real.sin i * Real.sin a⟩
        = a - 2 * Real.pi := by
      rw [hmk, Complex.arg_real_mul _ hsi]
      rw [show Real.cos a = Real.cos (a - 2 * Real.pi) from (Real.cos_sub_two_pi a).symm,
        show Real.sin a = Real.sin (a - 2 * Real.pi) from (Real.sin_sub_two_pi a).symm,
        Complex.ofReal_cos, Complex.ofReal_sin]
      exact Complex.arg_cos_add_sin_mul_I ⟨by linarith, by linarith⟩
    rw [harg, hinc, if_pos (by linarith)]
    simp only [Prod.mk.injEq, true_and]
    ring

theorem get_vec1_get_angles1 {v : Vec3} (hv : v3dot v v = 1) :
    get_vec1 (get_angles1 v).1 (get_angles1 v).2 = v := by
  obtain ⟨vx, vy, vz⟩ := v
  simp only [v3dot] at hv
  simp only [get_angles1, get_vec1, atan2, pos2pi]
  have hz1 : vz ≤ 1 := by nlinarith
  have hz2 : -1 ≤ vz := by nlinarith
  have hcos : Real.cos (Real.arccos vz) = vz := Real.cos_arccos hz2 hz1
  have hsin : Real.sin (Real.arccos vz) = Real.sqrt (1 - vz ^ 2) := Real.sin_arccos vz
  have h1vz : 1 - vz ^ 2 = vx ^ 2 + vy ^ 2 := by nlinarith
  by_cases h0 : vx = 0 ∧ vy = 0
  · obtain ⟨hx0, hy0⟩ := h0
    subst hx0
    subst hy0
    have hzc : (⟨(0 : ℝ), (0 : ℝ)⟩ : ℂ) = 0 := by
      apply Complex.ext <;> simp
    rw [hzc, Complex.arg_zero]
    have hs0 : Real.sqrt (1 - vz ^ 2) = 0 := by
      rw [h1vz]
      simp
    simp [hsin, hcos, hs0]
  · have hsum : 0 < vx ^ 2 + vy ^ 2 := by
      rcases not_and_or.1 h0 with h' | h'
      · have := pow_two_pos_of_ne_zero h'
        nlinarith [sq_nonneg vy]
      · have := pow_two_pos_of_ne_zero h'
        nlinarith [sq_nonneg vx]
    have hr : 0 < Real.sqrt (1 - vz ^ 2) := Real.sqrt_pos.2 (by rw [h1vz]; exact hsum)
    have hzc : (⟨vy, vx⟩ : ℂ) ≠ 0 := by
      intro hcon
      have hre : vy = 0 := by
        have := congrArg Complex.re hcon
        simpa using this
      have him : vx = 0 := by
        have := congrArg Complex.im hcon
        simpa using this
      exact h0 ⟨him, hre⟩
    have habs : Complex.abs ⟨vy, vx⟩ = Real.sqrt (1 - vz ^ 2) := by
      rw [Complex.abs_apply, Complex.normSq_mk, h1vz]
      congr 1
      ring
    have hsinA : Real.sin (Complex.arg ⟨vy, vx⟩) = vx / Real.sqrt (1 - vz ^ 2) := by
      rw [Complex.sin_arg, habs]
    have hcosA : Real.cos (Complex.arg ⟨vy, vx⟩) = vy / Real.sqrt (1 - vz ^ 2) := by
      rw [Complex.cos_arg hzc, habs]
    have hsinA' :
        Real.sin (if Complex.arg ⟨vy, vx⟩ < 0 then Complex.arg ⟨vy, vx⟩ + 2 * Real.pi
          else Complex.arg ⟨vy, vx⟩) = Real.sin (Complex.arg ⟨vy, vx⟩) := by
      split
      · exact Real.sin_add_two_pi _
      · rfl
    have hcosA' :
        Real.cos (if Complex.arg ⟨vy, vx⟩ < 0 then Complex.arg ⟨vy, vx⟩ + 2 * Real.pi
          else Complex.arg ⟨vy, vx⟩) = Real.cos (Complex.arg ⟨vy, vx⟩) := by
      split
      · exact Real.cos_add_two_pi _
      · rfl
    rw [hsin, hsinA', hcosA', hsinA, hcosA, hcos]
    simp only [Prod.mk.injEq]
    refine ⟨?_, ?_, trivial⟩
    · field_simp
    · field_simp

/-! ## Field equations of a default-constructed survey -/

theorem get_vec_false (inc azi : List ℝ) :
    get_vec inc azi false = List.zipWith get_vec1 inc azi := rfl

theorem make_def_md (EM : EMFun) (md inc azi : List ℝ) (sx sn : Vec3) :
    (Survey.make EM (mkDefArgs md inc azi sx sn)).md = md := rfl

theorem make_def_inc_rad (EM : EMFun) (md inc azi : List ℝ) (sx sn : Vec3) :
    (Survey.make EM (mkDefArgs md inc azi sx sn)).inc_rad = inc := rfl

theorem make_def_azi_rad (EM : EMFun) (md inc azi : List ℝ) (sx sn : Vec3) :
    (Survey.make EM (mkDefArgs md inc azi sx sn)).azi_rad = azi := rfl

theorem make_def_delta_md (EM : EMFun) (md inc azi : List ℝ) (sx sn : Vec3) :
    (Survey.make EM (mkDefArgs md inc azi sx sn)).delta_md
      = (List.range md.length).map (mcDeltaF md) := rfl

theorem make_def_dogleg (EM : EMFun) (md inc azi : List ℝ) (sx sn : Vec3) :
    (Survey.make EM (mkDefArgs md inc azi sx sn)).dogleg
      = (List.range md.length).map (mcDoglegF inc azi) := rfl

theorem make_def_vec (EM : EMFun) (md inc azi : List ℝ) (sx sn : Vec3) :
    (Survey.make EM (mkDefArgs md inc azi sx sn)).vec
      = some (List.zipWith get_vec1 inc azi) := rfl

theorem make_def_x (EM : EMFun) (md inc azi : List ℝ) (sx sn : Vec3) :
    (Survey.make EM (mkDefArgs md inc azi sx sn)).x
      = some (((List.range md.length).map (mcPosF md inc azi sx)).map (fun p => p.1)) := rfl

theorem make_def_y (EM : EMFun) (md inc azi : List ℝ) (sx sn : Vec3) :
    (Survey.make EM (mkDefArgs md inc azi sx sn)).y
      = some (((List.range md.length).map (mcPosF md inc azi sx)).map (fun p => p.2.1)) := rfl

theorem make_def_z (EM : EMFun) (md inc azi : List ℝ) (sx sn : Vec3) :
    (Survey.make EM (mkDefArgs md inc azi sx sn)).z
      = some (((List.range md.length).map (mcPosF md inc azi sx)).map (fun p => p.2.2)) := rfl

/-! ## Field equations of the survey returned by `interpolate_survey` (the
constructor runs `_min_curve` once and `interpolate_survey` runs it again; the
second run resolves nothing new) -/

theorem interp_result_md (EM : EMFun) (md inc azi : List ℝ) (sx sn : Vec3) :
    (Survey._min_curve (Survey.make EM (mkDefArgs md inc azi sx sn))).md = md := rfl

theorem interp_result_inc_rad (EM : EMFun) (md inc azi : List ℝ) (sx sn : Vec3) :
    (Survey._min_curve (Survey.make EM (mkDefArgs md inc azi sx sn))).inc_rad = inc := rfl

theorem interp_result_azi_rad (EM : EMFun) (md inc azi : List ℝ) (sx sn : Vec3) :
    (Survey._min_curve (Survey.make EM (mkDefArgs md inc azi sx sn))).azi_rad = azi := rfl

theorem interp_result_x (EM : EMFun) (md inc azi : List ℝ) (sx sn : Vec3) :
    (Survey._min_curve (Survey.make EM (mkDefArgs md inc azi sx sn))).x
      = some (((List.range md.length).map (mcPosF md inc azi sx)).map (fun p => p.1)) := rfl

theorem interp_result_y (EM : EMFun) (md inc azi : List ℝ) (sx sn : Vec3) :
    (Survey._min_curve (Survey.make EM (mkDefArgs md inc azi sx sn))).y
      = some (((List.range md.length).map (mcPosF md inc azi sx)).map (fun p => p.2.1)) := rfl

theorem interp_result_z (EM : EMFun) (md inc azi : List ℝ) (sx sn : Vec3) :
    (Survey._min_curve (Survey.make EM (mkDefArgs md inc azi sx sn))).z
      = some (((List.range md.length).map (mcPosF md inc azi sx)).map (fun p => p.2.2)) := rfl

/-- When both asserts pass, `interpolate_survey` returns the freshly
constructed-and-re-solved survey. -/
theorem interpolate_eq_ok (EM : EMFun) (s : Survey) (x : ℝ) (i : ℕ)
    (h1 : (i : ℤ) < (s.md.length : ℤ) - 1)
    (h2 : x ≤ s.delta_md.getD (i + 1) 0) :
    interpolate_survey EM s x (i : ℤ) = Except.ok (Survey._min_curve (Survey.make EM
      (mkDefArgs
        [s.md.getD i 0, s.md.getD i 0 + x]
        [s.inc_rad.getD i 0, (interpAngles s x (i : ℤ)).1]
        [s.azi_rad.getD i 0, (interpAngles s x (i : ℤ)).2]
        ((s.x.getD []).getD i 0, (s.y.getD []).getD i 0, (s.z.getD []).getD i 0)
        ((s.n.getD []).getD i 0, (s.e.getD []).getD i 0, (s.tvd.getD []).getD i 0)))) := by
  unfold interpolate_survey
  rw [if_pos h1]
  rw [show pyGetD s.delta_md ((i : ℤ) + 1) 0 = s.delta_md.getD (i + 1) 0 from
    pyGetD_natCast_add_one s.delta_md i 0]
  rw [if_pos h2]
  simp only [pyGetD_natCast, Survey.init, Survey.initSteps, Except.map, mkDefArgs]

/-! ## Preservation lemmas for the construction passes -/

theorem min_curve_survey_deg (s : Survey) : (Survey._min_curve s).survey_deg = s.survey_deg := by
  unfold Survey._min_curve Survey._get_nev
  dsimp only
  split_ifs <;> rfl

theorem min_curve_start_xyz (s : Survey) : (Survey._min_curve s).start_xyz = s.start_xyz := by
  unfold Survey._min_curve Survey._get_nev
  dsimp only
  split_ifs <;> rfl

theorem min_curve_wrp (s : Survey) :
    (Survey._min_curve s).well_ref_params = s.well_ref_params := by
  unfold Survey._min_curve Survey._get_nev
  dsimp only
  split_ifs <;> rfl

theorem min_curve_error_model (s : Survey) :
    (Survey._min_curve s).error_model = s.error_model := by
  unfold Survey._min_curve Survey._get_nev
  dsimp only
  split_ifs <;> rfl

theorem min_curve_cov_hla (s : Survey) : (Survey._min_curve s).cov_hla = s.cov_hla := by
  unfold Survey._min_curve Survey._get_nev
  dsimp only
  split_ifs <;> rfl

theorem min_curve_cov_nev (s : Survey) : (Survey._min_curve s).cov_nev = s.cov_nev := by
  unfold Survey._min_curve Survey._get_nev
  dsimp only
  split_ifs <;> rfl

theorem get_errors_survey_deg (EM : EMFun) (s : Survey) :
    (Survey._get_errors EM s).survey_deg = s.survey_deg := by
  unfold Survey._get_errors
  split_ifs <;> rfl

theorem get_errors_start_xyz (EM : EMFun) (s : Survey) :
    (Survey._get_errors EM s).start_xyz = s.start_xyz := by
  unfold Survey._get_errors
  split_ifs <;> rfl

theorem get_errors_wrp (EM : EMFun) (s : Survey) :
    (Survey._get_errors EM s).well_ref_params = s.well_ref_params := by
  unfold Survey._get_errors
  split_ifs <;> rfl

theorem get_errors_none {s : Survey} (EM : EMFun) (h : s.error_model = none) :
    Survey._get_errors EM s = s := by
  unfold Survey._get_errors
  rw [h]
  rfl

theorem get_errors_cov_hla_iscwsa {s : Survey} (EM : EMFun)
    (h : s.error_model = some "ISCWSA_MWD") :
    (Survey._get_errors EM s).cov_hla
      = some (npT3 (EM s.survey_deg s.start_xyz s.well_ref_params).1) := by
  unfold Survey._get_errors
  rw [h]
  simp

theorem get_errors_cov_nev_iscwsa {s : Survey} (EM : EMFun)
    (h : s.error_model = some "ISCWSA_MWD") :
    (Survey._get_errors EM s).cov_nev
      = some (npT3 (EM s.survey_deg s.start_xyz s.well_ref_params).2) := by
  unfold Survey._get_errors
  rw [h]
  simp

theorem get_errors_x (EM : EMFun) (s : Survey) : (Survey._get_errors EM s).x = s.x := by
  unfold Survey._get_errors
  split_ifs <;> rfl

theorem get_errors_y (EM : EMFun) (s : Survey) : (Survey._get_errors EM s).y = s.y := by
  unfold Survey._get_errors
  split_ifs <;> rfl

theorem get_errors_z (EM : EMFun) (s : Survey) : (Survey._get_errors EM s).z = s.z := by
  unfold Survey._get_errors
  split_ifs <;> rfl

theorem get_errors_n (EM : EMFun) (s : Survey) : (Survey._get_errors EM s).n = s.n := by
  unfold Survey._get_errors
  split_ifs <;> rfl

theorem get_errors_e (EM : EMFun) (s : Survey) : (Survey._get_errors EM s).e = s.e := by
  unfold Survey._get_errors
  split_ifs <;> rfl

theorem get_errors_tvd (EM : EMFun) (s : Survey) : (Survey._get_errors EM s).tvd = s.tvd := by
  unfold Survey._get_errors
  split_ifs <;> rfl

theorem make_xyz_of_none (EM : EMFun) (a : SurveyArgs) (h : a.x = none) :
    (Survey.make EM a).x
        = some ((MinCurve a.md (if a.deg then a.inc.map radiansOf else a.inc)
            (if a.deg then a.azi.map radiansOf else a.azi) a.start_xyz a.unit).poss.map
              (fun p => p.1)) ∧
    (Survey.make EM a).y
        = some ((MinCurve a.md (if a.deg then a.inc.map radiansOf else a.inc)
            (if a.deg then a.azi.map radiansOf else a.azi) a.start_xyz a.unit).poss.map
              (fun p => p.2.1)) ∧
    (Survey.make EM a).z
        = some ((MinCurve a.md (if a.deg then a.inc.map radiansOf else a.inc)
            (if a.deg then a.azi.map radiansOf else a.azi) a.start_xyz a.unit).poss.map
              (fun p => p.2.2)) := by
  unfold Survey.make
  dsimp only
  rw [get_errors_x, get_errors_y, get_errors_z]
  unfold Survey._min_curve Survey._get_nev
  dsimp only
  split_ifs <;> simp_all

theorem make_xyz_of_some (EM : EMFun) (a : SurveyArgs) (xs : List ℝ) (h : a.x = some xs) :
    (Survey.make EM a).x = some xs ∧
    (Survey.make EM a).y = a.y ∧
    (Survey.make EM a).z = a.z := by
  unfold Survey.make
  dsimp only
  rw [get_errors_x, get_errors_y, get_errors_z]
  unfold Survey._min_curve Survey._get_nev
  dsimp only
  split_ifs <;> simp_all

theorem make_netvd_of_some (EM : EMFun) (a : SurveyArgs) (ns : List ℝ) (h : a.n = some ns) :
    (Survey.make EM a).n = some ns ∧
    (Survey.make EM a).e = a.e ∧
    (Survey.make EM a).tvd = a.tvd := by
  unfold Survey.make
  dsimp only
  rw [get_errors_n, get_errors_e, get_errors_tvd]
  unfold Survey._min_curve Survey._get_nev
  dsimp only
  split_ifs <;> simp_all

theorem make_netvd_of_none (EM : EMFun) (a : SurveyArgs) (xs ys zs : List ℝ)
    (hx : a.x = some xs) (hy : a.y = some ys) (hz : a.z = some zs) (hn : a.n = none) :
    (Survey.make EM a).n
        = some ((get_nev (zip3 xs ys zs) a.start_xyz a.start_nev).map (fun p => p.1)) ∧
    (Survey.make EM a).e
        = some ((get_nev (zip3 xs ys zs) a.start_xyz a.start_nev).map (fun p => p.2.1)) ∧
    (Survey.make EM a).tvd
        = some ((get_nev (zip3 xs ys zs) a.start_xyz a.start_nev).map (fun p => p.2.2)) := by
  unfold Survey.make
  dsimp only
  rw [get_errors_n, get_errors_e, get_errors_tvd]
  unfold Survey._min_curve Survey._get_nev
  dsimp only
  split_ifs <;> simp_all

/-! ## Claim C10 -/

/-- C10: position overrides are resolved solely by the presence of `x` (and
NEV overrides solely by the presence of `n`): with `x` absent, `y`/`z` are
overwritten by the solver's positions; with `x` supplied but `y` absent, `y`
remains absent; `e` and `tvd` are adopted or discarded together with `n`. -/
theorem c10_override_resolution (EM : EMFun) (a : SurveyArgs) (xs ys zs ns ts : List ℝ) :
    ((Survey.make EM { a with x := none, y := some ys, z := some zs }).x
        = some ((MinCurve a.md (if a.deg then a.inc.map radiansOf else a.inc)
            (if a.deg then a.azi.map radiansOf else a.azi) a.start_xyz a.unit).poss.map
              (fun p => p.1)) ∧
      (Survey.make EM { a with x := none, y := some ys, z := some zs }).y
        = some ((MinCurve a.md (if a.deg then a.inc.map radiansOf else a.inc)
            (if a.deg then a.azi.map radiansOf else a.azi) a.start_xyz a.unit).poss.map
              (fun p => p.2.1)) ∧
      (Survey.make EM { a with x := none, y := some ys, z := some zs }).z
        = some ((MinCurve a.md (if a.deg then a.inc.map radiansOf else a.inc)
            (if a.deg then a.azi.map radiansOf else a.azi) a.start_xyz a.unit).poss.map
              (fun p => p.2.2))) ∧
    ((Survey.make EM { a with x := some xs, y := none, z := some zs }).x = some xs ∧
      (Survey.make EM { a with x := some xs, y := none, z := some zs }).y = none ∧
      (Survey.make EM { a with x := some xs, y := none, z := some zs }).z = some zs) ∧
    ((Survey.make EM { a with n := some ns, e := none, tvd := some ts }).n = some ns ∧
      (Survey.make EM { a with n := some ns, e := none, tvd := some ts }).e = none ∧
      (Survey.make EM { a with n := some ns, e := none, tvd := some ts }).tvd = some ts) ∧
    ((Survey.make EM { a with x := some xs, y := some ys, z := some zs, n := none }).n
        = some ((get_nev (zip3 xs ys zs) a.start_xyz a.start_nev).map (fun p => p.1)) ∧
      (Survey.make EM { a with x := some xs, y := some ys, z := some zs, n := none }).e
        = some ((get_nev (zip3 xs ys zs) a.start_xyz a.start_nev).map (fun p => p.2.1)) ∧
      (Survey.make EM { a with x := some xs, y := some ys, z := some zs, n := none }).tvd
        = some ((get_nev (zip3 xs ys zs) a.start_xyz a.start_nev).map (fun p => p.2.2))) := by
  refine ⟨?_, ?_, ?_, ?_⟩
  · exact make_xyz_of_none EM _ rfl
  · exact make_xyz_of_some EM _ xs rfl
  · exact make_netvd_of_some EM _ ns rfl
  · exact make_netvd_of_none EM _ xs ys zs rfl rfl rfl rfl

/-! ## Claim C9 -/

/-- C9: `interpolate_survey` leaves every field of the input Survey unchanged
and only produces a fresh result: as a step on an explicit two-cell state, the
translation of the source writes the output cell and nothing else — the input
component is returned untouched, and the output is a function of the input's
fields alone. -/
theorem c9_no_input_mutation (EM : EMFun) (st : InterpState) (x : ℝ) (index : ℤ) :
    (runInterpolate EM st x index).inp = st.inp ∧
    (runInterpolate EM st x index).out = some (interpolate_survey EM st.inp x index) :=
  ⟨rfl, rfl⟩

/-! ## Claim C8 -/

/-- C8: with the recognized `error_model` tag, the stored `cov_hla`/`cov_nev`
are exactly the error-model adapter's two outputs transposed station-major,
whatever covariance the caller supplied, and construction succeeds; with
`error_model` unset, the caller-supplied covariance is stored unmodified and
no covariance is computed internally. -/
theorem c8_error_model_covariance (EM : EMFun) (a : SurveyArgs) :
    ((Survey.make EM { a with error_model := some "ISCWSA_MWD" }).cov_hla
        = some (npT3 (EM (Survey.make EM { a with error_model := some "ISCWSA_MWD" }).survey_deg
            (Survey.make EM { a with error_model := some "ISCWSA_MWD" }).start_xyz
            (Survey.make EM { a with error_model := some "ISCWSA_MWD" }).well_ref_params).1) ∧
      (Survey.make EM { a with error_model := some "ISCWSA_MWD" }).cov_nev
        = some (npT3 (EM (Survey.make EM { a with error_model := some "ISCWSA_MWD" }).survey_deg
            (Survey.make EM { a with error_model := some "ISCWSA_MWD" }).start_xyz
            (Survey.make EM { a with error_model := some "ISCWSA_MWD" }).well_ref_params).2) ∧
      Survey.init EM { a with error_model := some "ISCWSA_MWD" }
        = Except.ok (Survey.make EM { a with error_model := some "ISCWSA_MWD" })) ∧
    ((Survey.make EM { a with error_model := none }).cov_hla = a.cov_hla ∧
      (Survey.make EM { a with error_model := none }).cov_nev = a.cov_nev) := by
  refine ⟨⟨?_, ?_, ?_⟩, ?_, ?_⟩
  · conv =>
      lhs
      rw [Survey.make]
    rw [get_errors_cov_hla_iscwsa EM (by rw [min_curve_error_model])]
    rw [Survey.make, get_errors_survey_deg, get_errors_start_xyz, get_errors_wrp]
  · conv =>
      lhs
      rw [Survey.make]
    rw [get_errors_cov_nev_iscwsa EM (by rw [min_curve_error_model])]
    rw [Survey.make, get_errors_survey_deg, get_errors_start_xyz, get_errors_wrp]
  · unfold Survey.init Survey.initSteps
    simp [error_models]
  · rw [Survey.make, get_errors_none EM (by rw [min_curve_error_model]), min_curve_cov_hla]
  · rw [Survey.make, get_errors_none EM (by rw [min_curve_error_model]), min_curve_cov_nev]

/-! ## Concrete evaluations of the example survey `exS` -/

theorem exS_md : exS.md = [0, 100] := rfl

theorem exS_inc_rad : exS.inc_rad = [0, 0] := rfl

theorem exS_azi_rad : exS.azi_rad = [0, 0] := rfl

theorem exS_delta_md : exS.delta_md = [0, 100] := by
  rw [show exS.delta_md = (List.range 2).map (mcDeltaF [0, 100]) from rfl,
    show List.range 2 = [0, 1] from rfl]
  simp [mcDeltaF]

theorem exS_dogleg : exS.dogleg = [0, 0] := by
  rw [show exS.dogleg = (List.range 2).map (mcDoglegF [0, 0] [0, 0]) from rfl,
    show List.range 2 = [0, 1] from rfl]
  simp [mcDoglegF, doglegOfAngles, Real.arccos_one]

/-! ## Claim C2 -/

/-- C2 (amended): constructing a Survey whose `error_model` is set to an
unrecognized tag fails with `InvalidConfiguration` and no instance is visible
to the caller — but only after the minimum-curvature positional computation
has already run, since the validation follows `_min_curve` in `__init__`. -/
theorem c2_invalid_error_model (EM : EMFun) (a : SurveyArgs) (m : String)
    (hm : a.error_model = some m) (hmem : m ∉ error_models) :
    Survey.initSteps EM a
      = ([Phase.makeAngles, Phase.minCurve], Except.error SurveyError.invalidConfiguration) := by
  unfold Survey.initSteps
  rw [hm]
  simp [hmem]

/-- C2 counterexample: at a concrete unrecognized tag, construction does fail
with `InvalidConfiguration` and yields no instance, but the minimum-curvature
phase has already been executed — refuting "before any positional
computation is attempted". -/
theorem c2_runs_min_curve_before_validation :
    Survey.init zeroEM exBadArgs = Except.error SurveyError.invalidConfiguration ∧
    Phase.minCurve ∈ (Survey.initSteps zeroEM exBadArgs).1 := by
  constructor
  · show (Survey.initSteps zeroEM exBadArgs).2 = _
    unfold Survey.initSteps
    simp [exBadArgs, error_models]
  · unfold Survey.initSteps
    simp [exBadArgs, error_models]

theorem c2_witness :
    exBadArgs.error_model = some "NOT_A_MODEL" ∧ "NOT_A_MODEL" ∉ error_models ∧
    Survey.initSteps zeroEM exBadArgs
      = ([Phase.makeAngles, Phase.minCurve], Except.error SurveyError.invalidConfiguration) :=
  ⟨rfl, by simp [error_models],
    c2_invalid_error_model zeroEM exBadArgs "NOT_A_MODEL" rfl (by simp [error_models])⟩

/-! ## Claim C5 -/

/-- C5 (amended): `interpolate_survey` fails with `IndexOutOfRange` exactly
when `index >= n - 1`; the check is the first thing evaluated and yields no
partial result, but indices below `0` are not rejected by it (Python
wrap-around indexing applies to them instead). -/
theorem c5_index_guard_iff (EM : EMFun) (s : Survey) (x : ℝ) (index : ℤ) :
    interpolate_survey EM s x index = Except.error SurveyError.indexOutOfRange ↔
      (s.md.length : ℤ) - 1 ≤ index := by
  unfold interpolate_survey
  split_ifs with h1 h2
  · constructor
    · intro hcon
      simp [Survey.init, Survey.initSteps, Except.map] at hcon
    · intro hcon
      exact absurd hcon (not_le.2 h1)
  · constructor
    · intro hcon
      exact absurd hcon (by simp)
    · intro hcon
      exact absurd hcon (not_le.2 h1)
  · constructor
    · intro _
      omega
    · intro _
      rfl

/-- C5 counterexample: at `index = -1` (not in `[0, n-2]`) the claim demands
an `IndexOutOfRange` failure, but the code accepts the index — only
`index < n - 1` is checked, and `-1` passes it. -/
theorem c5_negative_index_not_rejected :
    interpolate_survey zeroEM exS 0 (-1) ≠ Except.error SurveyError.indexOutOfRange ∧
    ¬((0 : ℤ) ≤ -1) := by
  refine ⟨?_, by decide⟩
  unfold interpolate_survey
  rw [if_pos (show (-1 : ℤ) < (exS.md.length : ℤ) - 1 by rw [exS_md]; norm_num)]
  rw [if_pos (show (0 : ℝ) ≤ pyGetD exS.delta_md (-1 + 1) 0 by
    rw [exS_delta_md]; norm_num [pyGetD])]
  simp [Survey.init, Survey.initSteps, Except.map]

/-! ## Claim C6 -/

/-- C6: for a valid index, `interpolate_survey` fails with `OutOfRange`
exactly when `x` exceeds the delta-MD of the bracketing interval; in
particular `x` equal to the delta-MD is accepted and interpolation succeeds. -/
theorem c6_x_bound_iff (EM : EMFun) (s : Survey) (x : ℝ) (i : ℕ)
    (hi : i + 1 < s.md.length) :
    (interpolate_survey EM s x (i : ℤ) = Except.error SurveyError.outOfRange ↔
      s.delta_md.getD (i + 1) 0 < x) ∧
    (x ≤ s.delta_md.getD (i + 1) 0 →
      ∃ t, interpolate_survey EM s x (i : ℤ) = Except.ok t) := by
  have h1 : (i : ℤ) < (s.md.length : ℤ) - 1 := by omega
  constructor
  · constructor
    · intro h
      by_contra hlt
      push_neg at hlt
      rw [interpolate_eq_ok EM s x i h1 hlt] at h
      simp at h
    · intro h
      unfold interpolate_survey
      rw [if_pos h1]
      rw [show pyGetD s.delta_md ((i : ℤ) + 1) 0 = s.delta_md.getD (i + 1) 0 from
        pyGetD_natCast_add_one s.delta_md i 0]
      rw [if_neg (not_le.2 h)]
  · intro hle
    exact ⟨_, interpolate_eq_ok EM s x i h1 hle⟩

theorem c6_witness :
    0 + 1 < exS.md.length ∧
    ((interpolate_survey zeroEM exS 50 ((0 : ℕ) : ℤ) = Except.error SurveyError.outOfRange ↔
        exS.delta_md.getD (0 + 1) 0 < 50) ∧
      ((50 : ℝ) ≤ exS.delta_md.getD (0 + 1) 0 →
        ∃ t, interpolate_survey zeroEM exS 50 ((0 : ℕ) : ℤ) = Except.ok t)) :=
  ⟨by rw [exS_md]; norm_num,
    c6_x_bound_iff zeroEM exS 50 0 (by rw [exS_md]; norm_num)⟩

/-! ## Claim C1 -/

/-- C1 (code bug): on the spec's own example survey, `interpolate_survey`
returns a 2-station survey `[md[0], md[0] + x]` — the original station at
`index + 1` is not part of the result, although the function's docstring and
the spec promise a 3-station survey with that station at index 2. -/
theorem c1_two_station_result :
    ∃ t, interpolate_survey zeroEM exS 50 ((0 : ℕ) : ℤ) = Except.ok t ∧
      t.md = [0, 50] ∧ t.md.length = 2 := by
  have h1 : ((0 : ℕ) : ℤ) < (exS.md.length : ℤ) - 1 := by rw [exS_md]; norm_num
  have h2 : (50 : ℝ) ≤ exS.delta_md.getD (0 + 1) 0 := by
    rw [exS_delta_md]
    norm_num
  refine ⟨_, interpolate_eq_ok zeroEM exS 50 0 h1 h2, ?_, ?_⟩
  · rw [interp_result_md, exS_md]
    norm_num
  · rw [interp_result_md]
    rfl

/-! ## Claim C3 -/

/-- C3: whenever the bracketing interval's dogleg is exactly zero, the
interpolated station's inclination and azimuth returned by
`interpolate_survey` equal those of the starting station exactly, for every
valid `x`. -/
theorem c3_tangent_section (EM : EMFun) (s : Survey) (x : ℝ) (i : ℕ)
    (hi : i + 1 < s.md.length) (hx : x ≤ s.delta_md.getD (i + 1) 0)
    (hd : s.dogleg.getD (i + 1) 0 = 0) :
    ∃ t, interpolate_survey EM s x (i : ℤ) = Except.ok t ∧
      t.inc_rad.getD 1 0 = s.inc_rad.getD i 0 ∧
      t.azi_rad.getD 1 0 = s.azi_rad.getD i 0 := by
  have h1 : (i : ℤ) < (s.md.length : ℤ) - 1 := by omega
  have hAngles : interpAngles s x (i : ℤ) = (s.inc_rad.getD i 0, s.azi_rad.getD i 0) := by
    unfold interpAngles
    rw [show pyGetD s.dogleg ((i : ℤ) + 1) 0 = s.dogleg.getD (i + 1) 0 from
      pyGetD_natCast_add_one s.dogleg i 0]
    rw [if_pos hd, pyGetD_natCast, pyGetD_natCast]
  refine ⟨_, interpolate_eq_ok EM s x i h1 hx, ?_, ?_⟩
  · rw [interp_result_inc_rad, hAngles]
    rfl
  · rw [interp_result_azi_rad, hAngles]
    rfl

theorem c3_witness :
    0 + 1 < exS.md.length ∧ (50 : ℝ) ≤ exS.delta_md.getD (0 + 1) 0 ∧
    exS.dogleg.getD (0 + 1) 0 = 0 ∧
    ∃ t, interpolate_survey zeroEM exS 50 ((0 : ℕ) : ℤ) = Except.ok t ∧
      t.inc_rad.getD 1 0 = exS.inc_rad.getD 0 0 ∧
      t.azi_rad.getD 1 0 = exS.azi_rad.getD 0 0 :=
  ⟨by rw [exS_md]; norm_num,
    by rw [exS_delta_md]; norm_num,
    by rw [exS_dogleg]; norm_num,
    c3_tangent_section zeroEM exS 50 0 (by rw [exS_md]; norm_num)
      (by rw [exS_delta_md]; norm_num) (by rw [exS_dogleg]; norm_num)⟩

/-! ## Claim C7 -/

theorem zerosLike_getD (a : List ℝ) (k : ℕ) : (zerosLike a).getD k 0 = 0 := by
  simp only [zerosLike, List.getD_eq_getElem?_getD, List.getElem?_map]
  cases a[k]? <;> simp

theorem mulL_getD (a b : List ℝ) (k : ℕ) (ha : k < a.length) (hb : k < b.length) :
    (mulL a b).getD k 0 = a.getD k 0 * b.getD k 0 :=
  getD_zipWith (fun u v => u * v) 0 0 0 ha hb

theorem mulL_getElem (a b : List ℝ) (k : ℕ) (ha : k < a.length) (hb : k < b.length) :
    (mulL a b)[k]?.getD 0 = a[k]?.getD 0 * b[k]?.getD 0 := by
  rw [← List.getD_eq_getElem?_getD, ← List.getD_eq_getElem?_getD, ← List.getD_eq_getElem?_getD]
  exact mulL_getD a b k ha hb

theorem zerosLike_getElem (a : List ℝ) (k : ℕ) : (zerosLike a)[k]?.getD 0 = 0 := by
  rw [← List.getD_eq_getElem?_getD]
  exact zerosLike_getD a k

/-- C7: `make_cov` returns one 3x3 matrix per station; with `diag = true` the
matrix is `diagonal (a^2, b^2, c^2)` (all off-diagonal entries zero), and with
`diag = false` it is the symmetric matrix with that diagonal and off-diagonal
entries `a*b`, `a*c`, `b*c`. -/
theorem c7_make_cov (a b c : List ℝ) (k : ℕ)
    (hb : b.length = a.length) (hc : c.length = a.length) (hk : k < a.length) :
    (make_cov a b c true).length = a.length ∧
    (make_cov a b c false).length = a.length ∧
    (make_cov a b c true).getD k 0
      = Matrix.diagonal
          ![a.getD k 0 * a.getD k 0, b.getD k 0 * b.getD k 0, c.getD k 0 * c.getD k 0] ∧
    (make_cov a b c false).getD k 0
      = Matrix.of
          ![![a.getD k 0 * a.getD k 0, a.getD k 0 * b.getD k 0, a.getD k 0 * c.getD k 0],
            ![a.getD k 0 * b.getD k 0, b.getD k 0 * b.getD k 0, b.getD k 0 * c.getD k 0],
            ![a.getD k 0 * c.getD k 0, b.getD k 0 * c.getD k 0, c.getD k 0 * c.getD k 0]] ∧
    Matrix.transpose ((make_cov a b c false).getD k 0) = (make_cov a b c false).getD k 0 := by
  have hka : k < a.length := hk
  have hkb : k < b.length := by omega
  have hkc : k < c.length := by omega
  have hlen1 : (make_cov a b c true).length = a.length := by
    simp [make_cov, npT3, mulL, Matrix.cons_val_zero]
  have hlen2 : (make_cov a b c false).length = a.length := by
    simp [make_cov, npT3, mulL, Matrix.cons_val_zero]
  have hkt : k < ((![![mulL a a, zerosLike a, zerosLike a],
      ![zerosLike a, mulL b b, zerosLike a],
      ![zerosLike a, zerosLike a, mulL c c]] : AxisStack) 0 0).length := by
    simpa [Matrix.cons_val_zero, mulL] using hka
  have hkf : k < ((![![mulL a a, mulL a b, mulL a c],
      ![mulL a b, mulL b b, mulL b c],
      ![mulL a c, mulL b c, mulL c c]] : AxisStack) 0 0).length := by
    simpa [Matrix.cons_val_zero, mulL] using hka
  have hdiag : (make_cov a b c true).getD k 0
      = Matrix.diagonal
          ![a.getD k 0 * a.getD k 0, b.getD k 0 * b.getD k 0, c.getD k 0 * c.getD k 0] := by
    show (npT3 _).getD k 0 = _
    unfold npT3
    rw [getD_range_map _ _ hkt]
    ext i j
    fin_cases i <;> fin_cases j <;>
      simp [Matrix.diagonal, Matrix.of_apply, Matrix.cons_val_zero, Matrix.cons_val_one,
        Matrix.cons_val_two, Matrix.head_cons, Matrix.tail_cons, Matrix.vecHead,
        Matrix.vecTail, Matrix.cons_val_succ, Function.comp,
        mulL_getElem a a k hka hka, mulL_getElem b b k hkb hkb, mulL_getElem c c k hkc hkc,
        zerosLike_getElem]
  have hfull : (make_cov a b c false).getD k 0
      = Matrix.of
          ![![a.getD k 0 * a.getD k 0, a.getD k 0 * b.getD k 0, a.getD k 0 * c.getD k 0],
            ![a.getD k 0 * b.getD k 0, b.getD k 0 * b.getD k 0, b.getD k 0 * c.getD k 0],
            ![a.getD k 0 * c.getD k 0, b.getD k 0 * c.getD k 0, c.getD k 0 * c.getD k 0]] := by
    show (npT3 _).getD k 0 = _
    unfold npT3
    rw [getD_range_map _ _ hkf]
    ext i j
    fin_cases i <;> fin_cases j <;>
      simp [Matrix.of_apply, Matrix.cons_val_zero, Matrix.cons_val_one,
        Matrix.cons_val_two, Matrix.head_cons, Matrix.tail_cons, Matrix.vecHead,
        Matrix.vecTail, Matrix.cons_val_succ, Function.comp,
        mulL_getElem a a k hka hka, mulL_getElem a b k hka hkb, mulL_getElem a c k hka hkc,
        mulL_getElem b b k hkb hkb, mulL_getElem b c k hkb hkc, mulL_getElem c c k hkc hkc]
  refine ⟨hlen1, hlen2, hdiag, hfull, ?_⟩
  rw [hfull]
  ext i j
  fin_cases i <;> fin_cases j <;>
    simp [Matrix.transpose_apply, Matrix.of_apply, Matrix.cons_val_zero, Matrix.cons_val_one,
      Matrix.cons_val_two, Matrix.head_cons, Matrix.tail_cons, Matrix.vecHead,
      Matrix.vecTail, Matrix.cons_val_succ, Function.comp]

theorem c7_witness :
    ([(3 : ℝ), 4].length = [(1 : ℝ), 2].length ∧ [(5 : ℝ), 6].length = [(1 : ℝ), 2].length ∧
      0 < [(1 : ℝ), 2].length) ∧
    ((make_cov [1, 2] [3, 4] [5, 6] true).length = [(1 : ℝ), 2].length ∧
      (make_cov [1, 2] [3, 4] [5, 6] false).length = [(1 : ℝ), 2].length ∧
      (make_cov [1, 2] [3, 4] [5, 6] true).getD 0 0
        = Matrix.diagonal
            ![[(1 : ℝ), 2].getD 0 0 * [(1 : ℝ), 2].getD 0 0,
              [(3 : ℝ), 4].getD 0 0 * [(3 : ℝ), 4].getD 0 0,
              [(5 : ℝ), 6].getD 0 0 * [(5 : ℝ), 6].getD 0 0] ∧
      (make_cov [1, 2] [3, 4] [5, 6] false).getD 0 0
        = Matrix.of
            ![![[(1 : ℝ), 2].getD 0 0 * [(1 : ℝ), 2].getD 0 0,
                [(1 : ℝ), 2].getD 0 0 * [(3 : ℝ), 4].getD 0 0,
                [(1 : ℝ), 2].getD 0 0 * [(5 : ℝ), 6].getD 0 0],
              ![[(1 : ℝ), 2].getD 0 0 * [(3 : ℝ), 4].getD 0 0,
                [(3 : ℝ), 4].getD 0 0 * [(3 : ℝ), 4].getD 0 0,
                [(3 : ℝ), 4].getD 0 0 * [(5 : ℝ), 6].getD 0 0],
              ![[(1 : ℝ), 2].getD 0 0 * [(5 : ℝ), 6].getD 0 0,
                [(3 : ℝ), 4].getD 0 0 * [(5 : ℝ), 6].getD 0 0,
                [(5 : ℝ), 6].getD 0 0 * [(5 : ℝ), 6].getD 0 0]] ∧
      Matrix.transpose ((make_cov [1, 2] [3, 4] [5, 6] false).getD 0 0)
        = (make_cov [1, 2] [3, 4] [5, 6] false).getD 0 0) :=
  ⟨⟨rfl, rfl, by norm_num⟩, c7_make_cov [1, 2] [3, 4] [5, 6] 0 rfl rfl (by norm_num)⟩

/-! ## Evaluation of `interpAngles` in its three regimes -/

theorem interpAngles_of_dogleg_zero (s : Survey) (x : ℝ) (i : ℕ)
    (hd : s.dogleg.getD (i + 1) 0 = 0) :
    interpAngles s x (i : ℤ) = (s.inc_rad.getD i 0, s.azi_rad.getD i 0) := by
  unfold interpAngles
  rw [show pyGetD s.dogleg ((i : ℤ) + 1) 0 = s.dogleg.getD (i + 1) 0 from
    pyGetD_natCast_add_one s.dogleg i 0]
  rw [if_pos hd, pyGetD_natCast, pyGetD_natCast]

theorem interpAngles_at_zero (s : Survey) (i : ℕ) (t1v : Vec3)
    (hvec : pyGetD (s.vec.getD []) (i : ℤ) (0, 0, 0) = t1v)
    (hdz : s.dogleg.getD (i + 1) 0 ≠ 0)
    (hsin : 0 < Real.sin (s.dogleg.getD (i + 1) 0)) :
    interpAngles s 0 (i : ℤ) = get_angles1 t1v := by
  unfold interpAngles
  rw [show pyGetD s.dogleg ((i : ℤ) + 1) 0 = s.dogleg.getD (i + 1) 0 from
    pyGetD_natCast_add_one s.dogleg i 0]
  rw [if_neg hdz]
  dsimp only
  rw [hvec, zero_mul, sub_zero, Real.sin_zero, div_self (ne_of_gt hsin), zero_div,
    v3smul_one, v3smul_zero, v3add_zero_right]

theorem interpAngles_at_delta (s : Survey) (i : ℕ) (t2v : Vec3)
    (hvec : pyGetD (s.vec.getD []) ((i : ℤ) + 1) (0, 0, 0) = t2v)
    (hdz : s.dogleg.getD (i + 1) 0 ≠ 0)
    (hsin : 0 < Real.sin (s.dogleg.getD (i + 1) 0))
    (hΔ : s.delta_md.getD (i + 1) 0 ≠ 0) :
    interpAngles s (s.delta_md.getD (i + 1) 0) (i : ℤ) = get_angles1 t2v := by
  unfold interpAngles
  rw [show pyGetD s.dogleg ((i : ℤ) + 1) 0 = s.dogleg.getD (i + 1) 0 from
    pyGetD_natCast_add_one s.dogleg i 0]
  rw [if_neg hdz]
  dsimp only
  rw [show pyGetD s.delta_md ((i : ℤ) + 1) 0 = s.delta_md.getD (i + 1) 0 from
    pyGetD_natCast_add_one s.delta_md i 0]
  rw [mul_comm (s.delta_md.getD (i + 1) 0)
    (s.dogleg.getD (i + 1) 0 / s.delta_md.getD (i + 1) 0)]
  rw [div_mul_cancel₀ _ hΔ, sub_self, Real.sin_zero, zero_div,
    div_self (ne_of_gt hsin), v3smul_zero, v3smul_one, v3add_zero_left, hvec]

/-! ## Station positions of the minimum-curvature solver -/

theorem posCol_getD (md inc azi : List ℝ) (sx : Vec3) (f : Vec3 → ℝ) (k : ℕ)
    (hk : k < md.length) :
    ((((List.range md.length).map (mcPosF md inc azi sx)).map f).getD k 0
      = f (mcPosF md inc azi sx k)) := by
  rw [List.map_map, getD_range_map _ _ hk]
  rfl

theorem mcPosF_succ (md inc azi : List ℝ) (sx : Vec3) (k : ℕ) :
    mcPosF md inc azi sx (k + 1)
      = v3add (mcPosF md inc azi sx k)
          (v3smul (mcDeltaF md (k + 1) / 2 * mcRfF inc azi (k + 1))
            (v3add (tvecF inc azi k) (tvecF inc azi (k + 1)))) := rfl

theorem mcDeltaF_succ (md : List ℝ) (k : ℕ) :
    mcDeltaF md (k + 1) = md.getD (k + 1) 0 - md.getD k 0 := rfl

theorem mcDoglegF_succ (inc azi : List ℝ) (k : ℕ) :
    mcDoglegF inc azi (k + 1)
      = doglegOfAngles (inc.getD k 0) (azi.getD k 0) (inc.getD (k + 1) 0)
          (azi.getD (k + 1) 0) := rfl

theorem mcRfF_succ (inc azi : List ℝ) (k : ℕ) :
    mcRfF inc azi (k + 1) = rfOfDogleg (mcDoglegF inc azi (k + 1)) := rfl

/-- Station 1 of the fresh 2-station survey produced by `interpolate_survey`:
the start offset plus one minimum-curvature increment. -/
theorem interp_result_pos1 (EM : EMFun) (m0 m1 I0 I1 A0 A1 : ℝ) (sx2 sn2 : Vec3) :
    (((Survey._min_curve (Survey.make EM
          (mkDefArgs [m0, m1] [I0, I1] [A0, A1] sx2 sn2))).x.getD []).getD 1 0
        = (v3add sx2 (v3smul ((m1 - m0) / 2 * rfOfDogleg (doglegOfAngles I0 A0 I1 A1))
            (v3add (get_vec1 I0 A0) (get_vec1 I1 A1)))).1) ∧
    (((Survey._min_curve (Survey.make EM
          (mkDefArgs [m0, m1] [I0, I1] [A0, A1] sx2 sn2))).y.getD []).getD 1 0
        = (v3add sx2 (v3smul ((m1 - m0) / 2 * rfOfDogleg (doglegOfAngles I0 A0 I1 A1))
            (v3add (get_vec1 I0 A0) (get_vec1 I1 A1)))).2.1) ∧
    (((Survey._min_curve (Survey.make EM
          (mkDefArgs [m0, m1] [I0, I1] [A0, A1] sx2 sn2))).z.getD []).getD 1 0
        = (v3add sx2 (v3smul ((m1 - m0) / 2 * rfOfDogleg (doglegOfAngles I0 A0 I1 A1))
            (v3add (get_vec1 I0 A0) (get_vec1 I1 A1)))).2.2) := by
  refine ⟨?_, ?_, ?_⟩
  · rw [interp_result_x]
    simp only [Option.getD_some]
    rw [posCol_getD _ _ _ _ _ 1 (by simp)]
    rfl
  · rw [interp_result_y]
    simp only [Option.getD_some]
    rw [posCol_getD _ _ _ _ _ 1 (by simp)]
    rfl
  · rw [interp_result_z]
    simp only [Option.getD_some]
    rw [posCol_getD _ _ _ _ _ 1 (by simp)]
    rfl

/-! ## Claim C4 -/

/-- C4 (amended): for a survey constructed from radian angles with
solver-derived positions, angles within their physical ranges, a strictly
increasing interval and a dogleg short of a full reversal, interpolating at
`x = 0` reproduces the starting station's position exactly, and at
`x = delta_md` the ending station's position exactly; the interpolated
inclination and azimuth reproduce those of the matching station exactly
whenever that station is not vertical (`0 < inc < pi`) — at a vertical
station the azimuth is degenerate and need not be recovered. -/
theorem c4_boundary_identity (EM : EMFun) (md inc azi : List ℝ) (sx sn : Vec3) (i : ℕ)
    (hleni : inc.length = md.length) (hlena : azi.length = md.length)
    (hi : i + 1 < md.length)
    (hrange : ∀ j, j < md.length →
      0 ≤ inc.getD j 0 ∧ inc.getD j 0 ≤ Real.pi ∧ 0 ≤ azi.getD j 0 ∧
        azi.getD j 0 < 2 * Real.pi)
    (hmd : md.getD i 0 < md.getD (i + 1) 0)
    (hDpi : mcDoglegF inc azi (i + 1) ≠ Real.pi) :
    (∃ t, interpolate_survey EM (Survey.make EM (mkDefArgs md inc azi sx sn)) 0 (i : ℤ)
        = Except.ok t ∧
      (t.x.getD []).getD 1 0
        = ((Survey.make EM (mkDefArgs md inc azi sx sn)).x.getD []).getD i 0 ∧
      (t.y.getD []).getD 1 0
        = ((Survey.make EM (mkDefArgs md inc azi sx sn)).y.getD []).getD i 0 ∧
      (t.z.getD []).getD 1 0
        = ((Survey.make EM (mkDefArgs md inc azi sx sn)).z.getD []).getD i 0 ∧
      (0 < inc.getD i 0 → inc.getD i 0 < Real.pi →
        t.inc_rad.getD 1 0 = inc.getD i 0 ∧ t.azi_rad.getD 1 0 = azi.getD i 0)) ∧
    (∃ t, interpolate_survey EM (Survey.make EM (mkDefArgs md inc azi sx sn))
          ((Survey.make EM (mkDefArgs md inc azi sx sn)).delta_md.getD (i + 1) 0) (i : ℤ)
        = Except.ok t ∧
      (t.x.getD []).getD 1 0
        = ((Survey.make EM (mkDefArgs md inc azi sx sn)).x.getD []).getD (i + 1) 0 ∧
      (t.y.getD []).getD 1 0
        = ((Survey.make EM (mkDefArgs md inc azi sx sn)).y.getD []).getD (i + 1) 0 ∧
      (t.z.getD []).getD 1 0
        = ((Survey.make EM (mkDefArgs md inc azi sx sn)).z.getD []).getD (i + 1) 0 ∧
      (0 < inc.getD (i + 1) 0 → inc.getD (i + 1) 0 < Real.pi →
        t.inc_rad.getD 1 0 = inc.getD (i + 1) 0 ∧
        t.azi_rad.getD 1 0 = azi.getD (i + 1) 0)) := by
  set s := Survey.make EM (mkDefArgs md inc azi sx sn) with hs
  have hsmd : s.md = md := by rw [hs]; exact make_def_md EM md inc azi sx sn
  have hsinc : s.inc_rad = inc := by rw [hs]; exact make_def_inc_rad EM md inc azi sx sn
  have hsazi : s.azi_rad = azi := by rw [hs]; exact make_def_azi_rad EM md inc azi sx sn
  have h1 : (i : ℤ) < (s.md.length : ℤ) - 1 := by rw [hsmd]; omega
  have hΔeq : s.delta_md.getD (i + 1) 0 = md.getD (i + 1) 0 - md.getD i 0 := by
    rw [hs, make_def_delta_md, getD_range_map _ _ hi]
    rfl
  have hΔpos : 0 < s.delta_md.getD (i + 1) 0 := by rw [hΔeq]; linarith
  have hDs : s.dogleg.getD (i + 1) 0 = mcDoglegF inc azi (i + 1) := by
    rw [hs, make_def_dogleg, getD_range_map _ _ hi]
  have hveci : pyGetD (s.vec.getD []) (i : ℤ) (0, 0, 0)
      = get_vec1 (inc.getD i 0) (azi.getD i 0) := by
    rw [hs, make_def_vec]
    simp only [Option.getD_some]
    rw [pyGetD_natCast]
    exact getD_zipWith get_vec1 0 0 (0, 0, 0) (by omega) (by omega)
  have hveci1 : pyGetD (s.vec.getD []) ((i : ℤ) + 1) (0, 0, 0)
      = get_vec1 (inc.getD (i + 1) 0) (azi.getD (i + 1) 0) := by
    rw [hs, make_def_vec]
    simp only [Option.getD_some]
    rw [pyGetD_natCast_add_one]
    exact getD_zipWith get_vec1 0 0 (0, 0, 0) (by omega) (by omega)
  obtain ⟨hIi0, hIipi, hAi0, hAipi⟩ := hrange i (by omega)
  obtain ⟨hI10, hI1pi, hA10, hA1pi⟩ := hrange (i + 1) (by omega)
  have hstart : ((s.x.getD []).getD i 0, (s.y.getD []).getD i 0, (s.z.getD []).getD i 0)
      = mcPosF md inc azi sx i := by
    rw [hs, make_def_x, make_def_y, make_def_z]
    simp only [Option.getD_some]
    rw [posCol_getD _ _ _ _ _ i (by omega), posCol_getD _ _ _ _ _ i (by omega),
      posCol_getD _ _ _ _ _ i (by omega)]
  have hox : (s.x.getD []).getD (i + 1) 0 = (mcPosF md inc azi sx (i + 1)).1 := by
    rw [hs, make_def_x]
    simp only [Option.getD_some]
    exact posCol_getD _ _ _ _ _ (i + 1) hi
  have hoy : (s.y.getD []).getD (i + 1) 0 = (mcPosF md inc azi sx (i + 1)).2.1 := by
    rw [hs, make_def_y]
    simp only [Option.getD_some]
    exact posCol_getD _ _ _ _ _ (i + 1) hi
  have hoz : (s.z.getD []).getD (i + 1) 0 = (mcPosF md inc azi sx (i + 1)).2.2 := by
    rw [hs, make_def_z]
    simp only [Option.getD_some]
    exact posCol_getD _ _ _ _ _ (i + 1) hi
  constructor
  · -- part (a): x = 0
    have keya : 0 < inc.getD i 0 → inc.getD i 0 < Real.pi →
        interpAngles s 0 (i : ℤ) = (inc.getD i 0, azi.getD i 0) := by
      intro hp hl
      by_cases hdz : s.dogleg.getD (i + 1) 0 = 0
      · rw [interpAngles_of_dogleg_zero s 0 i hdz, hsinc, hsazi]
      · have hdz' : mcDoglegF inc azi (i + 1) ≠ 0 := by rw [← hDs]; exact hdz
        have hsinD : 0 < Real.sin (s.dogleg.getD (i + 1) 0) := by
          rw [hDs]
          exact sin_arccos_pos hdz' hDpi
        rw [interpAngles_at_zero s i _ hveci hdz hsinD]
        exact get_angles1_get_vec1 hp hl hAi0 hAipi
    refine ⟨_, interpolate_eq_ok EM s 0 i h1 (le_of_lt hΔpos), ?_, ?_, ?_, ?_⟩
    · rw [(interp_result_pos1 EM _ _ _ _ _ _ _ _).1]
      rw [show s.md.getD i 0 + 0 - s.md.getD i 0 = (0 : ℝ) by ring]
      rw [zero_div, zero_mul, v3smul_zero, v3add_zero_right]
    · rw [(interp_result_pos1 EM _ _ _ _ _ _ _ _).2.1]
      rw [show s.md.getD i 0 + 0 - s.md.getD i 0 = (0 : ℝ) by ring]
      rw [zero_div, zero_mul, v3smul_zero, v3add_zero_right]
    · rw [(interp_result_pos1 EM _ _ _ _ _ _ _ _).2.2]
      rw [show s.md.getD i 0 + 0 - s.md.getD i 0 = (0 : ℝ) by ring]
      rw [zero_div, zero_mul, v3smul_zero, v3add_zero_right]
    · intro hp hl
      constructor
      · rw [interp_result_inc_rad]
        simp only [List.getD_cons_succ, List.getD_cons_zero]
        rw [keya hp hl]
      · rw [interp_result_azi_rad]
        simp only [List.getD_cons_succ, List.getD_cons_zero]
        rw [keya hp hl]
  · -- part (b): x = delta_md of the interval
    have key : get_vec1 (interpAngles s (s.delta_md.getD (i + 1) 0) (i : ℤ)).1
          (interpAngles s (s.delta_md.getD (i + 1) 0) (i : ℤ)).2
          = get_vec1 (inc.getD (i + 1) 0) (azi.getD (i + 1) 0) ∧
        doglegOfAngles (inc.getD i 0) (azi.getD i 0)
          (interpAngles s (s.delta_md.getD (i + 1) 0) (i : ℤ)).1
          (interpAngles s (s.delta_md.getD (i + 1) 0) (i : ℤ)).2
          = doglegOfAngles (inc.getD i 0) (azi.getD i 0) (inc.getD (i + 1) 0)
              (azi.getD (i + 1) 0) ∧
        (0 < inc.getD (i + 1) 0 → inc.getD (i + 1) 0 < Real.pi →
          interpAngles s (s.delta_md.getD (i + 1) 0) (i : ℤ)
            = (inc.getD (i + 1) 0, azi.getD (i + 1) 0)) := by
      by_cases hdz : s.dogleg.getD (i + 1) 0 = 0
      · have h0 : doglegOfAngles (inc.getD i 0) (azi.getD i 0) (inc.getD (i + 1) 0)
            (azi.getD (i + 1) 0) = 0 := by
          rw [← mcDoglegF_succ, ← hDs]
          exact hdz
        have hia := interpAngles_of_dogleg_zero s (s.delta_md.getD (i + 1) 0) i hdz
        have hvec_eq := doglegOfAngles_zero_vec_eq h0
        have hang := doglegOfAngles_zero_angles hIi0 hIipi hI10 hI1pi hAi0 hAipi hA10 hA1pi h0
        refine ⟨?_, ?_, ?_⟩
        · rw [hia, hsinc, hsazi]
          exact hvec_eq
        · rw [hia, hsinc, hsazi]
          rw [doglegOfAngles_eq_arccos_dot, get_vec1_unit, Real.arccos_one, h0]
        · intro hp1 hl1
          rw [hia, hsinc, hsazi]
          have hieq : inc.getD i 0 = inc.getD (i + 1) 0 := hang.1
          have haeq : azi.getD i 0 = azi.getD (i + 1) 0 := hang.2 hp1 hl1
          rw [hieq, haeq]
      · have hdz' : mcDoglegF inc azi (i + 1) ≠ 0 := by rw [← hDs]; exact hdz
        have hsinD : 0 < Real.sin (s.dogleg.getD (i + 1) 0) := by
          rw [hDs]
          exact sin_arccos_pos hdz' hDpi
        have hia := interpAngles_at_delta s i _ hveci1 hdz hsinD (ne_of_gt hΔpos)
        have hunit := get_vec1_unit (inc.getD (i + 1) 0) (azi.getD (i + 1) 0)
        refine ⟨?_, ?_, ?_⟩
        · rw [hia]
          exact get_vec1_get_angles1 hunit
        · rw [hia]
          rw [doglegOfAngles_eq_arccos_dot, get_vec1_get_angles1 hunit,
            ← doglegOfAngles_eq_arccos_dot]
        · intro hp1 hl1
          rw [hia]
          exact get_angles1_get_vec1 hp1 hl1 hA10 hA1pi
    obtain ⟨hTb, hD2b, hangb⟩ := key
    have hposvec :
        v3add ((s.x.getD []).getD i 0, (s.y.getD []).getD i 0, (s.z.getD []).getD i 0)
          (v3smul (s.delta_md.getD (i + 1) 0 / 2
              * rfOfDogleg (doglegOfAngles (inc.getD i 0) (azi.getD i 0)
                  (interpAngles s (s.delta_md.getD (i + 1) 0) (i : ℤ)).1
                  (interpAngles s (s.delta_md.getD (i + 1) 0) (i : ℤ)).2))
            (v3add (get_vec1 (inc.getD i 0) (azi.getD i 0))
              (get_vec1 (interpAngles s (s.delta_md.getD (i + 1) 0) (i : ℤ)).1
                (interpAngles s (s.delta_md.getD (i + 1) 0) (i : ℤ)).2)))
          = mcPosF md inc azi sx (i + 1) := by
      rw [hstart, hTb, hD2b, mcPosF_succ, hΔeq]
      rfl
    refine ⟨_, interpolate_eq_ok EM s (s.delta_md.getD (i + 1) 0) i h1 (le_refl _),
      ?_, ?_, ?_, ?_⟩
    · rw [(interp_result_pos1 EM _ _ _ _ _ _ _ _).1]
      rw [show s.md.getD i 0 + s.delta_md.getD (i + 1) 0 - s.md.getD i 0
          = s.delta_md.getD (i + 1) 0 by ring]
      rw [hsinc, hsazi, hposvec, hox]
    · rw [(interp_result_pos1 EM _ _ _ _ _ _ _ _).2.1]
      rw [show s.md.getD i 0 + s.delta_md.getD (i + 1) 0 - s.md.getD i 0
          = s.delta_md.getD (i + 1) 0 by ring]
      rw [hsinc, hsazi, hposvec, hoy]
    · rw [(interp_result_pos1 EM _ _ _ _ _ _ _ _).2.2]
      rw [show s.md.getD i 0 + s.delta_md.getD (i + 1) 0 - s.md.getD i 0
          = s.delta_md.getD (i + 1) 0 by ring]
      rw [hsinc, hsazi, hposvec, hoz]
    · intro hp1 hl1
      constructor
      · rw [interp_result_inc_rad]
        simp only [List.getD_cons_succ, List.getD_cons_zero]
        rw [hangb hp1 hl1]
      · rw [interp_result_azi_rad]
        simp only [List.getD_cons_succ, List.getD_cons_zero]
        rw [hangb hp1 hl1]

/-- C4 counterexample: on a constructed survey whose first station is vertical
(`inc = 0`) with azimuth `pi/2` and whose interval has a nonzero dogleg,
`interpolate_survey` at `x = 0` returns azimuth `0`, not the starting
station's azimuth `pi/2` — the claim's unconditional "reproduces the starting
station's angles exactly" fails at the degenerate vertical station. -/
theorem c4_vertical_station_azimuth_lost :
    ∃ t, interpolate_survey zeroEM ex2 0 ((0 : ℕ) : ℤ) = Except.ok t ∧
      t.azi_rad.getD 1 0 = 0 ∧
      ex2.azi_rad.getD 0 0 = Real.pi / 2 ∧
      (0 : ℝ) ≠ Real.pi / 2 := by
  have hpi := Real.pi_pos
  have h2md : ex2.md = [0, 1] := rfl
  have h2azi : ex2.azi_rad = [Real.pi / 2, Real.pi / 2] := rfl
  have h2delta : ex2.delta_md.getD (0 + 1) 0 = 1 := by
    rw [show ex2.delta_md = (List.range 2).map (mcDeltaF [0, 1]) from rfl,
      getD_range_map _ _ (by norm_num : (0 + 1 : ℕ) < 2),
      show mcDeltaF [0, 1] (0 + 1) = 1 - 0 from rfl]
    norm_num
  have h2dog : ex2.dogleg.getD (0 + 1) 0 = Real.pi / 2 := by
    rw [show ex2.dogleg
        = (List.range 2).map (mcDoglegF [0, Real.pi / 2] [Real.pi / 2, Real.pi / 2]) from rfl,
      getD_range_map _ _ (by norm_num : (0 + 1 : ℕ) < 2),
      show mcDoglegF [0, Real.pi / 2] [Real.pi / 2, Real.pi / 2] (0 + 1)
        = doglegOfAngles 0 (Real.pi / 2) (Real.pi / 2) (Real.pi / 2) from rfl]
    unfold doglegOfAngles
    rw [sub_zero, Real.cos_pi_div_two, Real.sin_zero, sub_self, Real.cos_zero]
    norm_num [Real.arccos_zero]
  have hdz : ex2.dogleg.getD (0 + 1) 0 ≠ 0 := by
    rw [h2dog]
    positivity
  have hsin : 0 < Real.sin (ex2.dogleg.getD (0 + 1) 0) := by
    rw [h2dog, Real.sin_pi_div_two]
    norm_num
  have hvx : pyGetD (ex2.vec.getD []) ((0 : ℕ) : ℤ) (0, 0, 0) = get_vec1 0 (Real.pi / 2) := by
    rw [show ex2.vec
        = some (List.zipWith get_vec1 [0, Real.pi / 2] [Real.pi / 2, Real.pi / 2]) from rfl]
    simp only [Option.getD_some]
    rw [pyGetD_natCast]
    rfl
  have hvec01 : get_vec1 0 (Real.pi / 2) = ((0 : ℝ), (0 : ℝ), (1 : ℝ)) := by
    simp [get_vec1]
  have hga : get_angles1 ((0 : ℝ), (0 : ℝ), (1 : ℝ)) = (0, 0) := by
    unfold get_angles1 atan2 pos2pi
    rw [show ((⟨(0 : ℝ), (0 : ℝ)⟩ : ℂ)) = 0 from by apply Complex.ext <;> simp]
    rw [Complex.arg_zero]
    norm_num [Real.arccos_one]
  have hia : interpAngles ex2 0 ((0 : ℕ) : ℤ) = (0, 0) := by
    rw [interpAngles_at_zero ex2 0 _ hvx hdz hsin, hvec01, hga]
  have h1 : ((0 : ℕ) : ℤ) < (ex2.md.length : ℤ) - 1 := by
    rw [h2md]
    norm_num
  have h2 : (0 : ℝ) ≤ ex2.delta_md.getD (0 + 1) 0 := by
    rw [h2delta]
    norm_num
  refine ⟨_, interpolate_eq_ok zeroEM ex2 0 0 h1 h2, ?_, ?_, ?_⟩
  · rw [interp_result_azi_rad]
    simp only [List.getD_cons_succ, List.getD_cons_zero]
    rw [hia]
  · rw [h2azi]
    rfl
  · exact ne_of_lt (by positivity)

/-- C4 witness: the amended boundary identity applied to a concrete horizontal
tangent survey. -/
theorem c4_witness :
    0 + 1 < ([(0 : ℝ), 1]).length ∧
    [(0 : ℝ), 1].getD 0 0 < [(0 : ℝ), 1].getD (0 + 1) 0 ∧
    mcDoglegF [Real.pi / 2, Real.pi / 2] [0, 0] (0 + 1) ≠ Real.pi ∧
    ((∃ t, interpolate_survey zeroEM
          (Survey.make zeroEM
            (mkDefArgs [0, 1] [Real.pi / 2, Real.pi / 2] [0, 0] (0, 0, 0) (0, 0, 0))) 0
          ((0 : ℕ) : ℤ) = Except.ok t ∧
        (t.x.getD []).getD 1 0
          = ((Survey.make zeroEM
              (mkDefArgs [0, 1] [Real.pi / 2, Real.pi / 2] [0, 0] (0, 0, 0)
                (0, 0, 0))).x.getD []).getD 0 0 ∧
        (t.y.getD []).getD 1 0
          = ((Survey.make zeroEM
              (mkDefArgs [0, 1] [Real.pi / 2, Real.pi / 2] [0, 0] (0, 0, 0)
                (0, 0, 0))).y.getD []).getD 0 0 ∧
        (t.z.getD []).getD 1 0
          = ((Survey.make zeroEM
              (mkDefArgs [0, 1] [Real.pi / 2, Real.pi / 2] [0, 0] (0, 0, 0)
                (0, 0, 0))).z.getD []).getD 0 0 ∧
        (0 < [Real.pi / 2, Real.pi / 2].getD 0 0 →
          [Real.pi / 2, Real.pi / 2].getD 0 0 < Real.pi →
          t.inc_rad.getD 1 0 = [Real.pi / 2, Real.pi / 2].getD 0 0 ∧
          t.azi_rad.getD 1 0 = [(0 : ℝ), 0].getD 0 0)) ∧
      (∃ t, interpolate_survey zeroEM
          (Survey.make zeroEM
            (mkDefArgs [0, 1] [Real.pi / 2, Real.pi / 2] [0, 0] (0, 0, 0) (0, 0, 0)))
          ((Survey.make zeroEM
            (mkDefArgs [0, 1] [Real.pi / 2, Real.pi / 2] [0, 0] (0, 0, 0)
              (0, 0, 0))).delta_md.getD (0 + 1) 0) ((0 : ℕ) : ℤ) = Except.ok t ∧
        (t.x.getD []).getD 1 0
          = ((Survey.make zeroEM
              (mkDefArgs [0, 1] [Real.pi / 2, Real.pi / 2] [0, 0] (0, 0, 0)
                (0, 0, 0))).x.getD []).getD (0 + 1) 0 ∧
        (t.y.getD []).getD 1 0
          = ((Survey.make zeroEM
              (mkDefArgs [0, 1] [Real.pi / 2, Real.pi / 2] [0, 0] (0, 0, 0)
                (0, 0, 0))).y.getD []).getD (0 + 1) 0 ∧
        (t.z.getD []).getD 1 0
          = ((Survey.make zeroEM
              (mkDefArgs [0, 1] [Real.pi / 2, Real.pi / 2] [0, 0] (0, 0, 0)
                (0, 0, 0))).z.getD []).getD (0 + 1) 0 ∧
        (0 < [Real.pi / 2, Real.pi / 2].getD (0 + 1) 0 →
          [Real.pi / 2, Real.pi / 2].getD (0 + 1) 0 < Real.pi →
          t.inc_rad.getD 1 0 = [Real.pi / 2, Real.pi / 2].getD (0 + 1) 0 ∧
          t.azi_rad.getD 1 0 = [(0 : ℝ), 0].getD (0 + 1) 0))) := by
  have hpi := Real.pi_pos
  have hD0 : mcDoglegF [Real.pi / 2, Real.pi / 2] [0, 0] (0 + 1) = 0 := by
    rw [show mcDoglegF [Real.pi / 2, Real.pi / 2] [0, 0] (0 + 1)
        = doglegOfAngles (Real.pi / 2) 0 (Real.pi / 2) 0 from rfl]
    unfold doglegOfAngles
    rw [sub_self, sub_self, Real.cos_zero]
    norm_num [Real.arccos_one]
  refine ⟨by norm_num, by norm_num, ?_, ?_⟩
  · rw [hD0]
    exact Ne.symm Real.pi_ne_zero
  · exact c4_boundary_identity zeroEM [0, 1] [Real.pi / 2, Real.pi / 2] [0, 0]
      (0, 0, 0) (0, 0, 0) 0 rfl rfl (by norm_num)
      (by
        intro j hj
        have hj2 : j < 2 := by simpa using hj
        interval_cases j <;>
          · simp only [List.getD_cons_zero, List.getD_cons_succ]
            refine ⟨by positivity, by linarith, le_refl 0, by positivity⟩)
      (by norm_num)
      (by rw [hD0]; exact Ne.symm Real.pi_ne_zero)

end
